import Mathlib

/-
Verification of the `pipeline` content-addressed file-transfer server
against its natural-language specification.

The Rust source is shallowly embedded: pure fragments become Lean
functions, the SQLite-backed registry becomes an association list of
rows, and external effects (filesystem reads, command execution, the
network send) become explicit parameters recording their outcome.
Machine integers are modelled as `Nat` with explicit truncation where
overflow matters.
-/

namespace Pipeline

/-- A byte, kept as a `Nat` (always < 256 in the byte lists we build). -/
abbrev Byte := Nat

/-! ## Data model: digests, file specs, receipts (src/lib.rs, src/hashing.rs) -/

/-- `FileDigest` from src/hashing.rs: a tagged lowercase-hex SHA-256,
either `Shallow` or `Full`. -/
inductive FileDigest
  | Shallow (hex : String)
  | Full (hex : String)
deriving DecidableEq

/-- `FileDigest::hash`: the hex string carried by either variant. -/
def FileDigest.hash : FileDigest → String
  | .Shallow h => h
  | .Full h => h

/-- `FileDigest::is_full`. -/
def FileDigest.is_full : FileDigest → Bool
  | .Shallow _ => false
  | .Full _ => true

/-- `FileSpec` from src/lib.rs: the client-originated description of a
file (client name, forward-slash relative directory, basename, digest). -/
structure FileSpec where
  client : String
  path : String
  filename : String
  sha256_digest : FileDigest
deriving DecidableEq

/-- `FileSpec::hash`: the hex of the embedded digest. -/
def FileSpec.hash (f : FileSpec) : String := f.sha256_digest.hash

/-- `Receipt` from src/lib.rs: the server-originated reply. -/
inductive Receipt
  | Expecting (spec : FileSpec) (server_rel_path : String)
  | Received (spec : FileSpec)
  | DifferentHash (spec : FileSpec)
  | Error (spec : FileSpec) (server_rel_path : String) (error : String)
deriving DecidableEq

/-- `Receipt::continue_processing`: true iff the variant is `Received`. -/
def Receipt.continue_processing : Receipt → Bool
  | .Received _ => true
  | _ => false

/-! ## Registry (src/server/database.rs) -/

/-- `ProcessStatus` from src/server/database.rs. -/
inductive ProcessStatus
  | AwaitFromClient
  | Processing
  | Failed
  | Done
  | ToPrune
deriving DecidableEq

/-- A row of the `files_in_pipeline` table (`FileInPipeline` in
src/server/database.rs). -/
structure FileInPipeline where
  hash : String
  full_hash : Bool
  client : String
  date_utc : String
  path : String
  file_name : String
  status : ProcessStatus
deriving DecidableEq

/-- The registry table: a list of rows, `hash` acting as primary key. -/
abbrev Db := List FileInPipeline

/-- Row lookup by primary key (the `WHERE hash = $1` clauses). -/
def db_lookup (db : Db) (h : String) : Option FileInPipeline :=
  db.find? (fun r => r.hash == h)

/-- `Database::contains`. -/
def Database.contains (db : Db) (h : String) : Bool :=
  (db_lookup db h).isSome

/-- `Database::status`; `none` models the `fetch_one` error when the row
is absent. -/
def Database.status (db : Db) (h : String) : Option ProcessStatus :=
  (db_lookup db h).map (·.status)

/-- Error cases surfaced by sqlx; the one reachable in this pure model is
the primary-key conflict of `insert_new`. -/
inductive DbError
  | unique_violation
deriving DecidableEq

/-- The row inserted by `Database::insert_new` for `file` at time `now`
(the `datetime(now)` argument made explicit). -/
def record_of_spec (file : FileSpec) (now : String) : FileInPipeline :=
  { hash := file.hash
    full_hash := file.sha256_digest.is_full
    client := file.client
    date_utc := now
    path := file.path
    file_name := file.filename
    status := ProcessStatus.AwaitFromClient }

/-- `Database::insert_new`: INSERT with `hash` as primary key; a
pre-existing row makes the statement fail with a uniqueness violation
and leaves the table unchanged. -/
def Database.insert_new (db : Db) (file : FileSpec) (now : String) :
    Except DbError Db :=
  if (db_lookup db file.hash).isSome then .error .unique_violation
  else .ok (record_of_spec file now :: db)

/-- `Database::update_status`: UPDATE of `status` and `date_utc` on the
row keyed by `hash` (no row matched means no change, as in SQL). -/
def Database.update_status (db : Db) (h : String) (s : ProcessStatus)
    (now : String) : Db :=
  db.map (fun r => if r.hash == h then { r with status := s, date_utc := now } else r)

/-- `Database::remove`: DELETE of the row keyed by `hash`. -/
def Database.remove (db : Db) (h : String) : Db :=
  db.filter (fun r => r.hash != h)

/-- `Database::tasks_with_status`. -/
def Database.tasks_with_status (db : Db) (s : ProcessStatus) : List FileInPipeline :=
  db.filter (fun r => r.status == s)

/-- `impl From<FileInPipeline> for FileSpec` in src/server/database.rs:
rebuild a `FileSpec` from a stored row. -/
def FileSpec.of_record (r : FileInPipeline) : FileSpec :=
  { client := r.client
    path := r.path
    filename := r.file_name
    sha256_digest := if r.full_hash then .Full r.hash else .Shallow r.hash }

/-! ## Server-side path bucketing (src/server.rs, rel_path) -/

/-- `rel_path` from src/server.rs.  The source attempts to create the
two-level bucket directory with `Config::create_dir_sync` and falls back
to the bare hash if that fails; `create_dir_ok` records that outcome. -/
def rel_path (spec : FileSpec) (create_dir_ok : Bool) : String :=
  let hash := spec.hash
  let bucket := hash.take 2 ++ "/" ++ (hash.drop 2).take 2
  if create_dir_ok then bucket ++ "/" ++ hash else hash

/-! ## Shallow hashing (src/hashing.rs, FileDigest::new_helper) -/

/-- The fixed 1 MiB buffer size of the shallow read (`vec![0; 1024 * 1024]`). -/
def MIB : Nat := 1024 * 1024

/-- `u64::to_le_bytes`: little-endian 8-byte encoding of the file size. -/
def le_bytes8 (n : Nat) : List Byte :=
  [n % 256, n / 2 ^ 8 % 256, n / 2 ^ 16 % 256, n / 2 ^ 24 % 256,
   n / 2 ^ 32 % 256, n / 2 ^ 40 % 256, n / 2 ^ 48 % 256, n / 2 ^ 56 % 256]

/-- Overwrite `data` starting at `idx` with `chunk` (the effect of
`file.read(&mut data[idx..])` returning `chunk.length` bytes). -/
def write_at (data : List Byte) (idx : Nat) (chunk : List Byte) : List Byte :=
  data.take idx ++ chunk ++ data.drop (idx + chunk.length)

/-- The read loop of `FileDigest::new_helper`:
`while let read_bytes = file.read(&mut data[idx..])? && read_bytes != 0 { idx += read_bytes; }`.
The file cursor always equals `idx`, so a read returns
`min (buffer space) (bytes left in the file)`.  `fuel` bounds the number
of iterations: each non-final read transfers at least one byte into the
buffer, so `data.length + 1` iterations always suffice. -/
def read_loop (fuel : Nat) (content data : List Byte) (idx : Nat) : List Byte :=
  match fuel with
  | 0 => data
  | fuel + 1 =>
    let read_bytes := min (data.length - idx) (content.length - idx)
    if read_bytes = 0 then data
    else read_loop fuel content (write_at data idx ((content.drop idx).take read_bytes))
      (idx + read_bytes)

/-- The byte sequence fed to the SHA-256 hasher by the shallow branch of
`FileDigest::new_helper`: the basename bytes, the little-endian size,
then the whole 1 MiB buffer after the read loop (`hasher.update(data)`
hashes the full vector, zeros included). -/
def shallow_hash_input (name_bytes : List Byte) (size : Nat) (content : List Byte) :
    List Byte :=
  name_bytes ++ le_bytes8 size ++ read_loop (MIB + 1) content (List.replicate MIB 0) 0

/-- Modelled from the claim wording, for comparison with
`shallow_hash_input`: basename bytes, little-endian size, then only the
bytes actually read (at most the first 1 MiB, no zero-padding). -/
def claimed_shallow_hash_input (name_bytes : List Byte) (size : Nat)
    (content : List Byte) : List Byte :=
  name_bytes ++ le_bytes8 size ++ content.take MIB

/-- `FileDigest::new_helper` (success path), with `sha256hex` standing
for hex-encoded SHA-256.  `full` hashes the entire contents; shallow
hashes `shallow_hash_input`. -/
def new_helper (sha256hex : List Byte → String) (full : Bool)
    (name_bytes : List Byte) (size : Nat) (content : List Byte) : FileDigest :=
  if full then .Full (sha256hex content)
  else .Shallow (sha256hex (shallow_hash_input name_bytes size content))

/-- `FileDigest::with_spec` (success path): recompute a digest of the
same kind as the one carried by `spec`, for the file materialized on the
server (`content` its bytes, its metadata length being `content.length`).
For `Shallow` the basename hashed is `spec.filename` (its UTF-8 bytes
being `name_bytes`); for `Full` the source passes an empty name and
size 0. -/
def with_spec (sha256hex : List Byte → String) (spec : FileSpec)
    (name_bytes : List Byte) (content : List Byte) : FileDigest :=
  match spec.sha256_digest with
  | .Shallow _ => new_helper sha256hex false name_bytes content.length content
  | .Full _ => new_helper sha256hex true [] 0 content

/-! ## Server pipeline (src/server.rs) -/

/-- `StatusAfterProcessing` from the server configuration. -/
inductive StatusAfterProcessing
  | Done
  | ToPrune
  | Manual
deriving DecidableEq

/-- `impl From<StatusAfterProcessing> for Option<ProcessStatus>`:
`Manual` maps to `none` (no status update after processing). -/
def StatusAfterProcessing.to_status : StatusAfterProcessing → Option ProcessStatus
  | .Done => some ProcessStatus.Done
  | .ToPrune => some ProcessStatus.ToPrune
  | .Manual => none

/-- Outcome of one `process_file` call. `diverged` marks the only path
with no pure counterpart: the status query retried forever against an
absent row. -/
structure ProcessFileResult where
  db : Db
  ran_command : Bool
  diverged : Bool
deriving DecidableEq

/-- `process_file` from src/server.rs.  Reads the current status (with
retry, modelled total on present rows); bails if already `Processing`;
otherwise marks `Processing`, runs the external processing command
(outcome `proc_success`), then writes `status_after.to_status` on
success (nothing for `Manual`) or `Failed` on failure. -/
def process_file (file : FileSpec) (db : Db) (proc_success : Bool)
    (status_after : StatusAfterProcessing) (now : String) : ProcessFileResult :=
  match Database.status db file.hash with
  | none => { db := db, ran_command := false, diverged := true }
  | some ProcessStatus.Processing => { db := db, ran_command := false, diverged := false }
  | some _ =>
    let db1 := Database.update_status db file.hash ProcessStatus.Processing now
    let after : Option ProcessStatus :=
      if proc_success then status_after.to_status else some ProcessStatus.Failed
    let db2 := match after with
      | some s => Database.update_status db1 file.hash s now
      | none => db1
    { db := db2, ran_command := true, diverged := false }

/-- Outcome of one `processing_pipeline` task.  `panicked` records the
`unwrap` on the receipt send; `under_sem_proc` records that the
`process_file` call (when reached from the pipeline) happens while
holding a `sem_proc` permit. -/
structure PipelineResult where
  receipt : Receipt
  db : Db
  panicked : Bool
  ran_command : Bool
  under_sem_proc : Bool
deriving DecidableEq

/-- `processing_pipeline` from src/server.rs, for a single task over a
quiescent registry.  External effects are explicit: `create_dir_ok` is
the outcome of the bucket-directory creation inside `rel_path`,
`hash_result` the outcome of `FileDigest::with_spec` on the server copy,
`send_ok` whether the receipt send on the shared write sink succeeds
(the source calls `.unwrap()` on it, so a failure panics the task), and
`proc_success` the external command outcome.  The registry calls retried
forever in the source are modelled by their eventual success, which in
this single-task model is the first attempt. -/
def processing_pipeline (file : FileSpec) (db : Db) (create_dir_ok : Bool)
    (hash_result : Except String FileDigest) (send_ok : Bool)
    (proc_success : Bool) (status_after : StatusAfterProcessing)
    (now : String) : PipelineResult :=
  let in_db := Database.contains db file.hash
  let await_first_arrival :=
    in_db && decide (Database.status db file.hash = some ProcessStatus.AwaitFromClient)
  let step : Receipt × Db :=
    if in_db && !await_first_arrival then
      (.Received file, db)
    else if in_db then
      match hash_result with
      | .ok received_hash =>
        if file.sha256_digest = received_hash then (.Received file, db)
        else (.DifferentHash file, db)
      | .error err => (.Error file (rel_path file create_dir_ok) err, db)
    else
      -- insert_new is retried until it succeeds; with the row absent the
      -- first attempt already inserts `record_of_spec file now`
      (.Expecting file (rel_path file create_dir_ok), record_of_spec file now :: db)
  let receipt := step.1
  let db1 := step.2
  if !send_ok then
    { receipt := receipt, db := db1, panicked := true, ran_command := false,
      under_sem_proc := false }
  else if !receipt.continue_processing then
    { receipt := receipt, db := db1, panicked := false, ran_command := false,
      under_sem_proc := false }
  else
    let res := process_file file db1 proc_success status_after now
    { receipt := receipt, db := res.db, panicked := false, ran_command := res.ran_command,
      under_sem_proc := true }

/-! ## Maintenance loops (src/server.rs) -/

/-- A `process_file` task spawned by a maintenance tick, together with
whether it was spawned holding a `sem_proc` permit. -/
structure SpawnedProcessTask where
  spec : FileSpec
  under_sem_proc : Bool
deriving DecidableEq

/-- One tick of `restart_failed_tasks` after `tasks_with_status(Failed)`
returned `query_res`: on success every failed row is turned back into a
`FileSpec` and `process_file` is spawned for it directly — the source
does not acquire `sem_proc` around these tasks; on a query error the
source logs a warning and continues with no spawns. -/
def restart_failed_tick (query_res : Except DbError (List FileInPipeline)) :
    List SpawnedProcessTask :=
  match query_res with
  | .ok failed =>
    failed.map (fun r => { spec := FileSpec.of_record r, under_sem_proc := false })
  | .error _ => []

/-- Outcome of one prune tick. -/
inductive PruneTickOutcome
  | continues (db : Db)
  | panics
deriving DecidableEq

/-- One tick of `prune_tasks` after `tasks_with_status(ToPrune)` returned
`query_res`: on success each listed file is removed from disk
(best-effort, external to this model) and its row deleted; on a query
error the source hits the unimplemented-branch macro, i.e. the tick
panics. -/
def prune_tick (db : Db) (query_res : Except DbError (List FileInPipeline)) :
    PruneTickOutcome :=
  match query_res with
  | .ok to_prune =>
    .continues (to_prune.foldl (fun d r => Database.remove d (FileSpec.of_record r).hash) db)
  | .error _ => .panics

/-- Where a task runs: detached via `tokio::spawn`, or polled as an arm
of the `tokio::select` in the server main function. -/
inductive TaskContext
  | detached
  | select_arm_of_main
deriving DecidableEq

/-- A panic in a detached task is confined to that task; a panic in a
select arm unwinds server main and terminates the whole process. -/
def panic_crashes_server : TaskContext → Bool
  | .detached => false
  | .select_arm_of_main => true

/-- `prune_tasks` is polled as a select arm of main (src/server.rs, main). -/
def prune_loop_context : TaskContext := .select_arm_of_main

/-- Pipeline tasks are detached via `tokio::spawn` (handle_client). -/
def pipeline_task_context : TaskContext := .detached

/-! ## Message codec (src/framed_io.rs and the serde derives of src/lib.rs) -/

/-- The JSON documents exchanged on the wire: the two message families
only ever serialize to strings and objects. -/
inductive Json
  | str (s : String)
  | obj (fields : List (String × Json))

/-- serde encoding of `FileDigest`: externally tagged newtype variants. -/
def encode_digest : FileDigest → Json
  | .Shallow h => .obj [("Shallow", .str h)]
  | .Full h => .obj [("Full", .str h)]

/-- serde decoding of `FileDigest`. -/
def decode_digest : Json → Option FileDigest
  | .obj [(tag, .str h)] =>
    if tag = "Shallow" then some (.Shallow h)
    else if tag = "Full" then some (.Full h)
    else none
  | _ => none

/-- serde encoding of `FileSpec`: a struct, fields in declaration order. -/
def encode_spec (f : FileSpec) : Json :=
  .obj [("client", .str f.client), ("path", .str f.path),
        ("filename", .str f.filename), ("sha256_digest", encode_digest f.sha256_digest)]

/-- serde decoding of `FileSpec` (fields looked up by name). -/
def decode_spec (j : Json) : Option FileSpec :=
  match j with
  | .obj fields =>
    match fields.lookup "client", fields.lookup "path",
        fields.lookup "filename", fields.lookup "sha256_digest" with
    | some (.str c), some (.str p), some (.str n), some dj =>
      match decode_digest dj with
      | some d => some { client := c, path := p, filename := n, sha256_digest := d }
      | none => none
    | _, _, _, _ => none
  | _ => none

/-- serde encoding of `Receipt`: externally tagged. -/
def encode_receipt : Receipt → Json
  | .Expecting spec srp =>
    .obj [("Expecting", .obj [("spec", encode_spec spec), ("server_rel_path", .str srp)])]
  | .Received spec => .obj [("Received", encode_spec spec)]
  | .DifferentHash spec => .obj [("DifferentHash", encode_spec spec)]
  | .Error spec srp err =>
    .obj [("Error", .obj [("spec", encode_spec spec), ("server_rel_path", .str srp),
      ("error", .str err)])]

/-- serde decoding of `Receipt`. -/
def decode_receipt (j : Json) : Option Receipt :=
  match j with
  | .obj [(tag, payload)] =>
    if tag = "Expecting" then
      match payload with
      | .obj fields =>
        match fields.lookup "spec", fields.lookup "server_rel_path" with
        | some sj, some (.str srp) => (decode_spec sj).map (fun s => .Expecting s srp)
        | _, _ => none
      | _ => none
    else if tag = "Received" then (decode_spec payload).map .Received
    else if tag = "DifferentHash" then (decode_spec payload).map .DifferentHash
    else if tag = "Error" then
      match payload with
      | .obj fields =>
        match fields.lookup "spec", fields.lookup "server_rel_path",
            fields.lookup "error" with
        | some sj, some (.str srp), some (.str e) =>
          (decode_spec sj).map (fun s => .Error s srp e)
        | _, _, _ => none
      | _ => none
    else none
  | _ => none

/-- Big-endian 4-byte length header of `LengthDelimitedCodec`. -/
def be_bytes4 (n : Nat) : List Byte :=
  [n / 2 ^ 24 % 256, n / 2 ^ 16 % 256, n / 2 ^ 8 % 256, n % 256]

/-- Frame a payload: 4-byte big-endian length, then the payload bytes. -/
def frame (payload : List Byte) : List Byte :=
  be_bytes4 payload.length ++ payload

/-- Decode a complete frame; a short header or a partial frame before
EOF is a protocol error. -/
def unframe (bytes : List Byte) : Option (List Byte) :=
  match bytes with
  | b0 :: b1 :: b2 :: b3 :: rest =>
    let n := ((b0 * 256 + b1) * 256 + b2) * 256 + b3
    if rest.length = n then some rest else none
  | _ => none

/-! ## Sample values used by concrete witnesses -/

/-- SHA-256 of the two-byte file used by the end-to-end scenario of the
spec; any 64-character hex string works for the theorems below. -/
def hex_a : String :=
  "8f434346648f6b96df89dda901c5176b10a6d83961dd3c1ac88b59b2dc327aa4"

def spec_a : FileSpec :=
  { client := "c1", path := "sub", filename := "a.mrc",
    sha256_digest := FileDigest.Full hex_a }

/-- Same digest hex as `spec_a` but submitted by another client under a
different name. -/
def spec_b : FileSpec :=
  { client := "c2", path := "other", filename := "b.mrc",
    sha256_digest := FileDigest.Full hex_a }

/-- A registry holding `spec_a` as `Done`. -/
def db_done : Db :=
  [{ hash := spec_a.hash, full_hash := true, client := "c1", date_utc := "t0",
     path := "sub", file_name := "a.mrc", status := ProcessStatus.Done }]

/-- A registry holding `spec_a` as `AwaitFromClient`. -/
def db_await : Db :=
  [{ hash := spec_a.hash, full_hash := true, client := "c1", date_utc := "t0",
     path := "sub", file_name := "a.mrc", status := ProcessStatus.AwaitFromClient }]

/-- A failed row, as fetched by the retry loop. -/
def failed_rec : FileInPipeline :=
  { hash := hex_a, full_hash := false, client := "c1", date_utc := "t0",
    path := "sub", file_name := "a.mrc", status := ProcessStatus.Failed }

/-! ## Registry lemmas -/

theorem contains_of_status {db : Db} {h : String} {s : ProcessStatus}
    (hs : Database.status db h = some s) : Database.contains db h = true := by
  unfold Database.status at hs
  unfold Database.contains
  cases hl : db_lookup db h with
  | none => rw [hl] at hs; simp at hs
  | some r => simp [hl]

theorem status_update_self (db : Db) (h now : String) (s : ProcessStatus) :
    Database.status (Database.update_status db h s now) h =
      (Database.status db h).map (fun _ => s) := by
  induction db with
  | nil => rfl
  | cons r tl ih =>
    unfold Database.update_status Database.status db_lookup at *
    cases hr : (r.hash == h) with
    | true => simp [List.find?, hr]
    | false => simpa [List.find?, hr] using ih

/-! ## Shallow-hashing lemmas -/

/-- The read loop on the zero-initialised buffer computes the file prefix
followed by the untouched zero tail. -/
theorem read_loop_replicate (B : Nat) (content : List Byte) :
    read_loop (B + 1) content (List.replicate B 0) 0 =
      content.take B ++ List.replicate (B - min content.length B) 0 := by
  match B with
  | 0 =>
    simp [read_loop]
  | B + 1 =>
    rcases Nat.eq_zero_or_pos content.length with hl | hl
    · rw [List.length_eq_zero.mp hl]
      simp [read_loop]
    · have hb1 : min (B + 1) content.length ≠ 0 := by
        simp only [ne_eq, Nat.min_eq_zero_iff]
        omega
      rw [read_loop]
      simp only [List.length_replicate, Nat.sub_zero, List.drop_zero]
      rw [if_neg hb1]
      set rb := min (B + 1) content.length with hrb
      have hrb_le_B : rb ≤ B + 1 := Nat.min_le_left _ _
      have hrb_le_len : rb ≤ content.length := Nat.min_le_right _ _
      have hdata : write_at (List.replicate (B + 1) 0) 0 (content.take rb) =
          content.take rb ++ List.replicate (B + 1 - rb) 0 := by
        unfold write_at
        simp only [List.take_zero, List.nil_append, List.length_take, Nat.zero_add]
        rw [Nat.min_eq_left hrb_le_len, List.drop_replicate]
      rw [hdata]
      have hlen : (content.take rb ++ List.replicate (B + 1 - rb) 0).length = B + 1 := by
        simp only [List.length_append, List.length_take, List.length_replicate]
        omega
      rw [read_loop]
      have hstop : min ((content.take rb ++ List.replicate (B + 1 - rb) 0).length - (0 + rb))
          (content.length - (0 + rb)) = 0 := by
        rw [hlen]
        simp only [Nat.zero_add, Nat.min_eq_zero_iff]
        omega
      rw [if_pos hstop]
      have htake : content.take rb = content.take (B + 1) := by
        rcases Nat.le_total content.length (B + 1) with hc | hc
        · rw [hrb, Nat.min_eq_right hc, List.take_length,
            List.take_of_length_le hc]
        · rw [hrb, Nat.min_eq_left hc]
      rw [htake, Nat.min_comm]

/-- Closed form of the shallow hasher input: basename, little-endian
size, file prefix, then zero-padding up to exactly 1 MiB. -/
theorem shallow_hash_input_eq (name_bytes : List Byte) (size : Nat)
    (content : List Byte) :
    shallow_hash_input name_bytes size content =
      name_bytes ++ le_bytes8 size ++
        (content.take MIB ++ List.replicate (MIB - min content.length MIB) 0) := by
  unfold shallow_hash_input
  rw [read_loop_replicate]

/-! ## Claim C7: insert_new -/

/-- C7: `Registry.insert_new` inserts a record whose status is
`AwaitFromClient`, and returns an error (leaving the registry unchanged)
whenever a record with the same hash already exists. -/
theorem insert_new_contract (db : Db) (file : FileSpec) (now : String) :
    (Database.contains db file.hash = false →
      Database.insert_new db file now = .ok (record_of_spec file now :: db) ∧
      (record_of_spec file now).status = ProcessStatus.AwaitFromClient) ∧
    (Database.contains db file.hash = true →
      Database.insert_new db file now = .error DbError.unique_violation) := by
  unfold Database.contains Database.insert_new
  constructor
  · intro hmiss
    rw [hmiss]
    exact ⟨rfl, rfl⟩
  · intro hhit
    rw [hhit]
    rfl

theorem insert_new_contract_witness :
    Database.contains [] spec_a.hash = false ∧
    (Database.insert_new [] spec_a "t0" = .ok [record_of_spec spec_a "t0"] ∧
      (record_of_spec spec_a "t0").status = ProcessStatus.AwaitFromClient) ∧
    Database.contains [record_of_spec spec_a "t0"] spec_a.hash = true ∧
    Database.insert_new [record_of_spec spec_a "t0"] spec_a "t1" =
      .error DbError.unique_violation := by
  refine ⟨by decide, (insert_new_contract [] spec_a "t0").1 (by decide), by decide, ?_⟩
  exact (insert_new_contract [record_of_spec spec_a "t0"] spec_a "t1").2 (by decide)

/-! ## Claim C8: rel_path determinism -/

/-- C8: `rel_path` is deterministic in the digest hex: two specs with the
same hex map to the same string, namely the two-level bucket form when
directory creation succeeds, and the bare hash otherwise. -/
theorem rel_path_deterministic (s1 s2 : FileSpec) (ok : Bool)
    (hhex : s1.hash = s2.hash) :
    rel_path s1 ok = rel_path s2 ok ∧
    rel_path s1 true =
      s1.hash.take 2 ++ "/" ++ (s1.hash.drop 2).take 2 ++ "/" ++ s1.hash ∧
    rel_path s1 false = s1.hash := by
  refine ⟨?_, rfl, rfl⟩
  unfold rel_path
  rw [hhex]

theorem rel_path_deterministic_witness :
    spec_a.hash = spec_b.hash ∧
    (rel_path spec_a true = rel_path spec_b true ∧
      rel_path spec_a true =
        spec_a.hash.take 2 ++ "/" ++ (spec_a.hash.drop 2).take 2 ++ "/" ++ spec_a.hash ∧
      rel_path spec_a false = spec_a.hash) := by
  have h := rel_path_deterministic spec_a spec_b true (by decide)
  exact ⟨by decide, h.1, h.2.1, h.2.2⟩

/-! ## Claim C2 (corrected): the shallow digest zero-pads short files -/

/-- C2 counterexample: for a 2-byte file the hasher input of the source
is not the claimed one — the source hashes the entire 1 MiB buffer, so
a short file is zero-padded (the two inputs differ already in length,
1 MiB versus 2 bytes of contents). -/
theorem shallow_input_padding_counterexample :
    shallow_hash_input [97] 2 [104, 105] ≠
      claimed_shallow_hash_input [97] 2 [104, 105] := by
  intro h
  have hlen := congrArg List.length h
  rw [shallow_hash_input_eq] at hlen
  simp only [claimed_shallow_hash_input, le_bytes8, List.length_append,
    List.length_take, List.length_replicate, List.length_cons, List.length_nil,
    MIB] at hlen
  omega

/-- C2 (amended): the shallow digest is the hex SHA-256 of, in order, the
UTF-8 bytes of the basename, the little-endian 8-byte size, and the full
1 MiB read buffer — the first `min size 1MiB` bytes of the file followed
by zero bytes padding the buffer to exactly 1 MiB; the full digest hashes
the complete contents. -/
theorem new_helper_hash_inputs (sha256hex : List Byte → String)
    (name_bytes : List Byte) (size : Nat) (content : List Byte) :
    new_helper sha256hex false name_bytes size content =
      FileDigest.Shallow (sha256hex (name_bytes ++ le_bytes8 size ++
        (content.take MIB ++ List.replicate (MIB - min content.length MIB) 0))) ∧
    new_helper sha256hex true name_bytes size content =
      FileDigest.Full (sha256hex content) := by
  constructor
  · unfold new_helper
    rw [if_neg (by simp), shallow_hash_input_eq]
  · rfl

/-! ## Pipeline lemmas -/

theorem process_file_already_processing (file : FileSpec) (db : Db) (ps : Bool)
    (sa : StatusAfterProcessing) (now : String)
    (hs : Database.status db file.hash = some ProcessStatus.Processing) :
    process_file file db ps sa now = { db := db, ran_command := false, diverged := false } := by
  unfold process_file
  rw [hs]

theorem process_file_runs {file : FileSpec} {db : Db} (ps : Bool)
    (sa : StatusAfterProcessing) (now : String) {s : ProcessStatus}
    (hs : Database.status db file.hash = some s) (hne : s ≠ ProcessStatus.Processing) :
    (process_file file db ps sa now).ran_command = true ∧
    Database.status (process_file file db ps sa now).db file.hash =
      some (if ps then (match sa with
        | StatusAfterProcessing.Done => ProcessStatus.Done
        | StatusAfterProcessing.ToPrune => ProcessStatus.ToPrune
        | StatusAfterProcessing.Manual => ProcessStatus.Processing)
        else ProcessStatus.Failed) := by
  cases s with
  | Processing => exact absurd rfl hne
  | AwaitFromClient =>
    cases ps <;> cases sa <;>
      simp [process_file, hs, StatusAfterProcessing.to_status, status_update_self]
  | Failed =>
    cases ps <;> cases sa <;>
      simp [process_file, hs, StatusAfterProcessing.to_status, status_update_self]
  | Done =>
    cases ps <;> cases sa <;>
      simp [process_file, hs, StatusAfterProcessing.to_status, status_update_self]
  | ToPrune =>
    cases ps <;> cases sa <;>
      simp [process_file, hs, StatusAfterProcessing.to_status, status_update_self]

/-- In the duplicate branch (row present, status not `AwaitFromClient`)
the pipeline replies `Received` and, because `continue_processing` is
true for `Received`, still calls `process_file` under `sem_proc`. -/
theorem pipeline_duplicate_eq (file : FileSpec) (db : Db) (cd : Bool)
    (hr : Except String FileDigest) (ps : Bool) (sa : StatusAfterProcessing)
    (now : String) {s : ProcessStatus}
    (hs : Database.status db file.hash = some s)
    (hne : s ≠ ProcessStatus.AwaitFromClient) :
    processing_pipeline file db cd hr true ps sa now =
      { receipt := Receipt.Received file,
        db := (process_file file db ps sa now).db,
        panicked := false,
        ran_command := (process_file file db ps sa now).ran_command,
        under_sem_proc := true } := by
  have hc := contains_of_status hs
  have hdec : decide (Database.status db file.hash = some ProcessStatus.AwaitFromClient)
      = false := by
    simp [hs, hne]
  simp [processing_pipeline, hc, hdec, Receipt.continue_processing]

/-- In the verify branch (row present in `AwaitFromClient`) the pipeline
recomputes the digest and replies according to `hash_result`. -/
theorem pipeline_verify_eq (file : FileSpec) (db : Db) (cd : Bool)
    (hr : Except String FileDigest) (ps : Bool) (sa : StatusAfterProcessing)
    (now : String)
    (hs : Database.status db file.hash = some ProcessStatus.AwaitFromClient) :
    processing_pipeline file db cd hr true ps sa now =
      (match hr with
      | .ok received_hash =>
        if file.sha256_digest = received_hash then
          { receipt := Receipt.Received file,
            db := (process_file file db ps sa now).db,
            panicked := false,
            ran_command := (process_file file db ps sa now).ran_command,
            under_sem_proc := true }
        else
          { receipt := Receipt.DifferentHash file, db := db, panicked := false,
            ran_command := false, under_sem_proc := false }
      | .error err =>
        { receipt := Receipt.Error file (rel_path file cd) err, db := db,
          panicked := false, ran_command := false, under_sem_proc := false }) := by
  have hc := contains_of_status hs
  have hdec : decide (Database.status db file.hash = some ProcessStatus.AwaitFromClient)
      = true := by
    simp [hs]
  cases hr with
  | ok received_hash =>
    by_cases heq : file.sha256_digest = received_hash <;>
      simp [processing_pipeline, hc, hdec, heq, Receipt.continue_processing]
  | error err =>
    simp [processing_pipeline, hc, hdec, Receipt.continue_processing]

/-! ## Claim C1 (corrected): duplicate submissions re-enter processing -/

/-- C1 counterexample: with the record of `spec_a` already `Done`, the
pipeline replies `Received` but does not stop — the external command is
run again and the registry row is rewritten (here with
`status_after_processing = Manual`, leaving it in `Processing`). -/
theorem duplicate_done_counterexample :
    (processing_pipeline spec_a db_done true (Except.ok spec_a.sha256_digest) true true
      StatusAfterProcessing.Manual "t1").ran_command = true ∧
    (processing_pipeline spec_a db_done true (Except.ok spec_a.sha256_digest) true true
      StatusAfterProcessing.Manual "t1").db ≠ db_done := by
  decide

/-- C1 (amended): for a record present with a status other than
`AwaitFromClient` and a working connection, the pipeline replies
`Received(spec)` immediately — but, `continue_processing` being true for
`Received`, it still enters the Process phase: if the status is
`Processing` the task stops with no registry write and no command run,
while for `Done`, `Failed` or `ToPrune` it sets the status to
`Processing`, runs the external processing command again, and finishes
according to `status_after_processing` or `Failed`. -/
theorem duplicate_reply_and_reprocessing (file : FileSpec) (db : Db) (cd : Bool)
    (hr : Except String FileDigest) (ps : Bool) (sa : StatusAfterProcessing)
    (now : String) (s : ProcessStatus)
    (hs : Database.status db file.hash = some s)
    (hne : s ≠ ProcessStatus.AwaitFromClient) :
    (processing_pipeline file db cd hr true ps sa now).receipt = Receipt.Received file ∧
    (s = ProcessStatus.Processing →
      (processing_pipeline file db cd hr true ps sa now).db = db ∧
      (processing_pipeline file db cd hr true ps sa now).ran_command = false) ∧
    (s ≠ ProcessStatus.Processing →
      (processing_pipeline file db cd hr true ps sa now).ran_command = true ∧
      Database.status (processing_pipeline file db cd hr true ps sa now).db file.hash =
        some (if ps then (match sa with
          | StatusAfterProcessing.Done => ProcessStatus.Done
          | StatusAfterProcessing.ToPrune => ProcessStatus.ToPrune
          | StatusAfterProcessing.Manual => ProcessStatus.Processing)
          else ProcessStatus.Failed)) := by
  rw [pipeline_duplicate_eq file db cd hr ps sa now hs hne]
  refine ⟨rfl, ?_, ?_⟩
  · intro hp
    rw [process_file_already_processing file db ps sa now (hp ▸ hs)]
    exact ⟨rfl, rfl⟩
  · intro hp
    exact process_file_runs ps sa now hs hp

theorem duplicate_reply_and_reprocessing_witness :
    Database.status db_done spec_a.hash = some ProcessStatus.Done ∧
    (processing_pipeline spec_a db_done true (Except.ok spec_a.sha256_digest) true true
      StatusAfterProcessing.Done "t1").receipt = Receipt.Received spec_a ∧
    (processing_pipeline spec_a db_done true (Except.ok spec_a.sha256_digest) true true
      StatusAfterProcessing.Done "t1").ran_command = true := by
  have h := duplicate_reply_and_reprocessing spec_a db_done true
    (Except.ok spec_a.sha256_digest) true StatusAfterProcessing.Done "t1"
    ProcessStatus.Done (by decide) (by decide)
  exact ⟨by decide, h.1, (h.2.2 (by decide)).1⟩

/-! ## Claim C6: the Process phase -/

/-- C6: in the Process phase, if the current status is `Processing` the
task stops without any registry write; otherwise the status is set to
`Processing`, the external command runs, and the record ends in the
configured `status_after_processing` on success (`Done`, `ToPrune`, or
`Processing` itself for `Manual`, which performs no update) and in
`Failed` on failure. -/
theorem process_phase_contract (file : FileSpec) (db : Db) (ps : Bool)
    (sa : StatusAfterProcessing) (now : String) (s : ProcessStatus)
    (hs : Database.status db file.hash = some s) :
    (s = ProcessStatus.Processing →
      process_file file db ps sa now =
        { db := db, ran_command := false, diverged := false }) ∧
    (s ≠ ProcessStatus.Processing →
      (process_file file db ps sa now).ran_command = true ∧
      Database.status (process_file file db ps sa now).db file.hash =
        some (if ps then (match sa with
          | StatusAfterProcessing.Done => ProcessStatus.Done
          | StatusAfterProcessing.ToPrune => ProcessStatus.ToPrune
          | StatusAfterProcessing.Manual => ProcessStatus.Processing)
          else ProcessStatus.Failed)) := by
  constructor
  · intro hp
    exact process_file_already_processing file db ps sa now (hp ▸ hs)
  · intro hp
    exact process_file_runs ps sa now hs hp

theorem process_phase_contract_witness :
    Database.status db_done spec_a.hash = some ProcessStatus.Done ∧
    (process_file spec_a db_done false StatusAfterProcessing.Done "t1").ran_command = true ∧
    Database.status (process_file spec_a db_done false StatusAfterProcessing.Done "t1").db
      spec_a.hash = some ProcessStatus.Failed := by
  have h := process_phase_contract spec_a db_done false StatusAfterProcessing.Done "t1"
    ProcessStatus.Done (by decide)
  exact ⟨by decide, (h.2 (by decide)).1, (h.2 (by decide)).2⟩

/-! ## Claim C5: the Verify phase -/

/-- C5: for a record in `AwaitFromClient`, the server recomputes the
digest of the materialized file with the same kind as `spec.digest`; a
matching digest is answered with `Received`, a mismatch with
`DifferentHash` while the record stays `AwaitFromClient`, and an I/O
error during hashing with `Error` carrying the server_rel_path and the
error message, with no further processing in the last two cases. -/
theorem verify_phase_contract (file : FileSpec) (db : Db) (cd : Bool) (ps : Bool)
    (sa : StatusAfterProcessing) (now : String)
    (hs : Database.status db file.hash = some ProcessStatus.AwaitFromClient) :
    (∀ (sha256hex : List Byte → String) (name_bytes content : List Byte),
      (with_spec sha256hex file name_bytes content).is_full = file.sha256_digest.is_full) ∧
    (∀ d : FileDigest, d = file.sha256_digest →
      (processing_pipeline file db cd (Except.ok d) true ps sa now).receipt =
        Receipt.Received file) ∧
    (∀ d : FileDigest, d ≠ file.sha256_digest →
      (processing_pipeline file db cd (Except.ok d) true ps sa now).receipt =
        Receipt.DifferentHash file ∧
      (processing_pipeline file db cd (Except.ok d) true ps sa now).db = db ∧
      Database.status (processing_pipeline file db cd (Except.ok d) true ps sa now).db
        file.hash = some ProcessStatus.AwaitFromClient ∧
      (processing_pipeline file db cd (Except.ok d) true ps sa now).ran_command = false) ∧
    (∀ e : String,
      (processing_pipeline file db cd (Except.error e) true ps sa now).receipt =
        Receipt.Error file (rel_path file cd) e ∧
      (processing_pipeline file db cd (Except.error e) true ps sa now).db = db ∧
      (processing_pipeline file db cd (Except.error e) true ps sa now).ran_command
        = false) := by
  refine ⟨?_, ?_, ?_, ?_⟩
  · intro sha256hex name_bytes content
    cases hd : file.sha256_digest <;>
      simp [with_spec, new_helper, FileDigest.is_full, hd]
  · intro d hd
    rw [pipeline_verify_eq file db cd (Except.ok d) ps sa now hs]
    simp [hd.symm]
  · intro d hd
    have hne2 : ¬ (file.sha256_digest = d) := fun h => hd (Eq.symm h)
    rw [pipeline_verify_eq file db cd (Except.ok d) ps sa now hs]
    simp only [if_neg hne2]
    simp [hs]
  · intro e
    rw [pipeline_verify_eq file db cd (Except.error e) ps sa now hs]
    exact ⟨rfl, rfl, rfl⟩

theorem verify_phase_contract_witness :
    Database.status db_await spec_a.hash = some ProcessStatus.AwaitFromClient ∧
    (processing_pipeline spec_a db_await true (Except.ok spec_a.sha256_digest) true true
      StatusAfterProcessing.Done "t1").receipt = Receipt.Received spec_a ∧
    (processing_pipeline spec_a db_await true (Except.ok (FileDigest.Full "deadbeef")) true
      true StatusAfterProcessing.Done "t1").receipt = Receipt.DifferentHash spec_a ∧
    (processing_pipeline spec_a db_await true (Except.error "io failure") true true
      StatusAfterProcessing.Done "t1").receipt =
      Receipt.Error spec_a (rel_path spec_a true) "io failure" := by
  have h := verify_phase_contract spec_a db_await true true StatusAfterProcessing.Done "t1"
    (by decide)
  exact ⟨by decide, h.2.1 spec_a.sha256_digest rfl,
    (h.2.2.1 (FileDigest.Full "deadbeef") (by decide)).1, (h.2.2.2 "io failure").1⟩

/-! ## Claim C4 (corrected): a failed receipt send panics the task -/

/-- C4 counterexample: with the record awaited and the digest matching,
a failed send makes the pipeline task panic before the Process phase:
no registry update happens at all (the row would have had to move to
`Processing` and then `Done`). -/
theorem send_failure_counterexample :
    (processing_pipeline spec_a db_await true (Except.ok spec_a.sha256_digest) false true
      StatusAfterProcessing.Done "t1").panicked = true ∧
    (processing_pipeline spec_a db_await true (Except.ok spec_a.sha256_digest) false true
      StatusAfterProcessing.Done "t1").db = db_await ∧
    (processing_pipeline spec_a db_await true (Except.ok spec_a.sha256_digest) false true
      StatusAfterProcessing.Done "t1").ran_command = false := by
  decide

/-- C4 (amended): when sending the receipt fails because the peer closed
the connection, the `unwrap` panics the pipeline task: the Process phase
never runs and no further registry update is made (a row already present
is left untouched).  The panic is confined to the detached task, so the
server itself keeps running. -/
theorem send_failure_behaviour (file : FileSpec) (db : Db) (cd : Bool)
    (hr : Except String FileDigest) (ps : Bool) (sa : StatusAfterProcessing)
    (now : String) :
    (processing_pipeline file db cd hr false ps sa now).panicked = true ∧
    (processing_pipeline file db cd hr false ps sa now).ran_command = false ∧
    (Database.contains db file.hash = true →
      (processing_pipeline file db cd hr false ps sa now).db = db) ∧
    panic_crashes_server pipeline_task_context = false := by
  refine ⟨rfl, rfl, ?_, rfl⟩
  intro hc
  by_cases haw : Database.status db file.hash = some ProcessStatus.AwaitFromClient
  · cases hr with
    | ok received_hash =>
      by_cases heq : file.sha256_digest = received_hash <;>
        simp [processing_pipeline, hc, haw, heq]
    | error err => simp [processing_pipeline, hc, haw]
  · simp [processing_pipeline, hc, haw]

theorem send_failure_behaviour_witness :
    (processing_pipeline spec_a db_await true (Except.ok spec_a.sha256_digest) false true
      StatusAfterProcessing.Done "t2").panicked = true ∧
    Database.contains db_await spec_a.hash = true ∧
    (processing_pipeline spec_a db_await true (Except.ok spec_a.sha256_digest) false true
      StatusAfterProcessing.Done "t2").db = db_await := by
  have h := send_failure_behaviour spec_a db_await true (Except.ok spec_a.sha256_digest)
    true StatusAfterProcessing.Done "t2"
  exact ⟨h.1, by decide, h.2.2.1 (by decide)⟩

/-! ## Claim C3 (corrected): sem_proc does not gate the retry loop -/

/-- C3 counterexample: the task spawned by the retry loop for a `Failed`
record invokes `process_file` without acquiring a `sem_proc` permit. -/
theorem retry_spawn_bypasses_sem_proc :
    (restart_failed_tick (Except.ok [failed_rec])).map SpawnedProcessTask.under_sem_proc
      = [false] := by
  decide

/-- C3 (amended): the Process phase invoked from the server pipeline
executes while holding a `sem_proc` permit, but every task spawned by
the retry loop for `Failed` records calls `process_file` directly
without acquiring `sem_proc`, so `concurrency.max_processing` bounds
only the pipeline-triggered processing commands. -/
theorem sem_proc_gating (file : FileSpec) (db : Db) (cd : Bool)
    (hr : Except String FileDigest) (so ps : Bool) (sa : StatusAfterProcessing)
    (now : String) (query_res : Except DbError (List FileInPipeline)) :
    ((processing_pipeline file db cd hr so ps sa now).ran_command = true →
      (processing_pipeline file db cd hr so ps sa now).under_sem_proc = true) ∧
    (∀ t ∈ restart_failed_tick query_res, t.under_sem_proc = false) := by
  constructor
  · intro h
    cases so with
    | false => simp [processing_pipeline] at h
    | true =>
      simp only [processing_pipeline] at h ⊢
      split_ifs at h ⊢ <;> simp_all
  · intro t ht
    cases query_res with
    | ok failed =>
      simp only [restart_failed_tick, List.mem_map] at ht
      obtain ⟨r, _, rfl⟩ := ht
      rfl
    | error e => simp [restart_failed_tick] at ht

theorem sem_proc_gating_witness :
    (({ spec := FileSpec.of_record failed_rec, under_sem_proc := false } :
        SpawnedProcessTask) ∈ restart_failed_tick (Except.ok [failed_rec])) ∧
    ({ spec := FileSpec.of_record failed_rec, under_sem_proc := false } :
        SpawnedProcessTask).under_sem_proc = false := by
  refine ⟨by decide, ?_⟩
  exact (sem_proc_gating spec_a [] true (Except.ok spec_a.sha256_digest) true true
    StatusAfterProcessing.Done "t0" (Except.ok [failed_rec])).2 _ (by decide)

/-! ## Claim C9: codec round-trip -/

theorem decode_encode_digest (d : FileDigest) :
    decode_digest (encode_digest d) = some d := by
  cases d <;> rfl

theorem decode_encode_spec (f : FileSpec) : decode_spec (encode_spec f) = some f := by
  obtain ⟨c, p, n, d⟩ := f
  simp [encode_spec, decode_spec, List.lookup, decode_encode_digest]

theorem decode_encode_receipt (r : Receipt) :
    decode_receipt (encode_receipt r) = some r := by
  cases r <;> simp [encode_receipt, decode_receipt, List.lookup, decode_encode_spec]

/-- C9: encoding any `FileSpec` or `Receipt` as its (externally tagged)
JSON document and decoding it back yields the original value, and a
framed payload under the u32 length bound unframes to itself. -/
theorem codec_roundtrip (f : FileSpec) (r : Receipt) (payload : List Byte) :
    decode_spec (encode_spec f) = some f ∧
    decode_receipt (encode_receipt r) = some r ∧
    (payload.length < 2 ^ 32 → unframe (frame payload) = some payload) := by
  refine ⟨decode_encode_spec f, decode_encode_receipt r, ?_⟩
  intro hlen
  simp only [frame, be_bytes4, unframe, List.cons_append, List.nil_append]
  split
  · rfl
  · exfalso
    omega

theorem codec_roundtrip_witness :
    decode_spec (encode_spec spec_a) = some spec_a ∧
    decode_receipt (encode_receipt (Receipt.Received spec_a)) =
      some (Receipt.Received spec_a) ∧
    ([104, 105] : List Byte).length < 2 ^ 32 ∧
    unframe (frame [104, 105]) = some [104, 105] := by
  have h := codec_roundtrip spec_a (Receipt.Received spec_a) [104, 105]
  exact ⟨h.1, h.2.1, by decide, h.2.2 (by decide)⟩

/-! ## Claim C10: prune-loop panic on registry error -/

/-- C10: a registry error in the prune loop hits the unimplemented
branch and panics the tick; the prune loop being polled as a select arm
of server main, the panic terminates the whole server process — unlike
the retry loop, which logs the same query error and continues with no
spawns. -/
theorem prune_loop_panics_on_db_error (db : Db) (e : DbError) :
    prune_tick db (Except.error e) = PruneTickOutcome.panics ∧
    panic_crashes_server prune_loop_context = true ∧
    restart_failed_tick (Except.error e) = [] :=
  ⟨rfl, rfl, rfl⟩

end Pipeline
